import Mathlib

/-!
Verification of `scripts/analysis/analyze-schema.py`, the Terrastories
schema analyzer.  The script reads a PostgreSQL DDL dump, extracts table
and foreign-key definitions with two regular expressions, classifies the
tables, prints a TypeScript-migration preview and writes a text summary.

The Python functions are shallowly embedded here as total Lean functions
on `List Char` / `String`.  The two regexes are specialized enough that
their Python (leftmost, non-overlapping `re.finditer`) semantics can be
implemented directly, without a general regex engine:

* `CREATE TABLE "public"\."(\w+)" \((.*?)\);`  (with `re.DOTALL`) —
  a literal prefix, a greedy word run (`\w+` is followed by `"`, a
  non-word character, so backtracking never shortens it), a literal,
  and a non-greedy capture that stops at the first occurrence of `);`.
* `ALTER TABLE (?:ONLY )?public\.(\w+) ADD CONSTRAINT (\w+) FOREIGN KEY
  \(([^)]+)\) REFERENCES public\.(\w+)\(([^)]+)\)` — literals, greedy
  word runs each followed by a non-word literal character, and greedy
  `[^)]+` captures each followed by the literal `)` (so backtracking
  never shortens them either; the alternative `(?:ONLY )?` is decided
  deterministically because `ONLY ` and `public.` differ at their first
  character).

`\w` and Python's whitespace set are modelled at ASCII (all inputs in
the source and its schema dumps are ASCII).
-/

/-- ASCII model of Python's `\w` character class: letters, digits, `_`. -/
def isWordChar (c : Char) : Bool :=
  c.isAlphanum || c = '_'

/-- ASCII model of Python's whitespace set used by `str.strip` / `str.split`. -/
def isSpace (c : Char) : Bool :=
  c = ' ' || c = '\t' || c = '\n' || c = '\r' || c = '\x0b' || c = '\x0c'

/-- Match a literal list of characters at the front, returning the rest. -/
def dropLit : List Char → List Char → Option (List Char)
  | [], cs => some cs
  | _ :: _, [] => none
  | l :: ls, c :: cs => if c = l then dropLit ls cs else none

/-- Greedy `\w+`/`\w*` run: the maximal leading run of word characters. -/
def takeWordRun : List Char → List Char × List Char
  | [] => ([], [])
  | c :: cs =>
    if isWordChar c then
      let (w, r) := takeWordRun cs
      (c :: w, r)
    else ([], c :: cs)

/-- Non-greedy `(.*?)lit`: the characters up to the first occurrence of the
literal `lit`, together with what follows that occurrence. -/
def takeUntilLit (lit : List Char) : List Char → Option (List Char × List Char)
  | [] =>
    (match dropLit lit [] with
     | some rest => some ([], rest)
     | none => none)
  | c :: cs =>
    match dropLit lit (c :: cs) with
    | some rest => some ([], rest)
    | none => (takeUntilLit lit cs).map (fun p => (c :: p.1, p.2))

/-- Python `str.strip()` (both ends). -/
def pyStrip (s : List Char) : List Char :=
  ((s.dropWhile isSpace).reverse.dropWhile isSpace).reverse

/-- Python `str.rstrip(',')`. -/
def pyRStripComma (s : List Char) : List Char :=
  (s.reverse.dropWhile (· = ',')).reverse

/-- Python `str.split('\n')`. -/
def splitNL : List Char → List (List Char)
  | [] => [[]]
  | c :: cs =>
    if c = '\n' then [] :: splitNL cs
    else
      match splitNL cs with
      | [] => [[c]]
      | l :: ls => (c :: l) :: ls

/-- One step area of `re.sub(r'"([^"]*)"', r'\1', line)`: remove each
matched pair of double quotes, keeping the text between them; an
unmatched `"` is left in place.  Fuel-indexed for structural recursion
(the fuel `s.length + 1` in `unquote` is always sufficient: every step
consumes at least one character). -/
def unquoteAux : Nat → List Char → List Char
  | 0, _ => []
  | _ + 1, [] => []
  | fuel + 1, c :: cs =>
    if c = '"' then
      match cs.dropWhile (· != '"') with
      | '"' :: rest => cs.takeWhile (· != '"') ++ unquoteAux fuel rest
      | _ => c :: unquoteAux fuel cs
    else c :: unquoteAux fuel cs

/-- `re.sub(r'"([^"]*)"', r'\1', line)` from `parse_create_table`. -/
def unquote (s : List Char) : List Char :=
  unquoteAux (s.length + 1) s

/-- The per-line processing of `parse_create_table`:
`line = line.strip().rstrip(',')`; keep it only if nonempty and not a
`--` comment; then remove quotes and strip again. -/
def processLine (line : List Char) : Option (List Char) :=
  let l := pyRStripComma (pyStrip line)
  if l.isEmpty || ['-', '-'].isPrefixOf l then none
  else some (pyStrip (unquote l))

/-- The column-fragment list built from the raw text captured between the
parentheses of a `CREATE TABLE` statement. -/
def processCols (colsText : List Char) : List (List Char) :=
  (splitNL (pyStrip colsText)).filterMap processLine

/-- One attempt of the table regex
`CREATE TABLE "public"\."(\w+)" \((.*?)\);` at the current position:
returns the two captures (table name, raw columns text) and the rest of
the input after the match. -/
def ctMatch (cs : List Char) : Option ((List Char × List Char) × List Char) :=
  match dropLit "CREATE TABLE \"public\".\"".data cs with
  | none => none
  | some cs1 =>
    let (name, cs2) := takeWordRun cs1
    if name.isEmpty then none
    else
      match dropLit "\" (".data cs2 with
      | none => none
      | some cs3 =>
        match takeUntilLit ");".data cs3 with
        | none => none
        | some (cols, rest) => some ((name, cols), rest)

/-- `re.finditer` loop for the table regex: try a match at each position,
left to right, continuing after the end of each match.  Fuel-indexed;
`s.length + 1` is always enough fuel because each step consumes at least
one character. -/
def ctScanAux : Nat → List Char → List (List Char × List Char)
  | 0, _ => []
  | _ + 1, [] => []
  | fuel + 1, c :: cs =>
    match ctMatch (c :: cs) with
    | some (r, rest) => r :: ctScanAux fuel rest
    | none => ctScanAux fuel cs

def ctScan (cs : List Char) : List (List Char × List Char) :=
  ctScanAux (cs.length + 1) cs

/-- Python `dict` assignment `tables[name] = cols` on an insertion-ordered
association list: overwriting an existing key keeps its position. -/
def dictInsert (k : String) (v : List String) :
    List (String × List String) → List (String × List String)
  | [] => [(k, v)]
  | (k', v') :: rest =>
    if k' = k then (k, v) :: rest else (k', v') :: dictInsert k v rest

/-- `parse_create_table` from `analyze-schema.py`: the mapping (as an
insertion-ordered association list, mirroring a Python `dict`) from table
name to the list of processed column fragments. -/
def parse_create_table (s : String) : List (String × List String) :=
  (ctScan s.data).foldl
    (fun acc m =>
      dictInsert (String.mk m.1) ((processCols m.2).map String.mk) acc)
    []

/-- A foreign-key record as built by `parse_foreign_keys`. -/
structure ForeignKey where
  source_table : String
  source_column : String
  target_table : String
  target_column : String
  constraint_name : String
deriving Repr, DecidableEq

/-- The tail of the foreign-key regex, `([^)]+)\)`, matched after the
opening parenthesis that follows the target table: the greedy `[^)]+`
capture (which, being followed by the literal `)`, is exactly the run up
to the first `)`) and the closing parenthesis.  `st`, `cn`, `sc`, `tt`
are the captures already made. -/
def fkMatchTCols (st cn sc tt : List Char) (cs : List Char) :
    Option (ForeignKey × List Char) :=
  let tc := cs.takeWhile (· != ')')
  if tc.isEmpty then none
  else
    match dropLit ")".data (cs.dropWhile (· != ')')) with
    | none => none
    | some rest =>
      some (⟨String.mk st, String.mk sc, String.mk tt, String.mk tc,
             String.mk cn⟩, rest)

/-- The part of the foreign-key regex from the source-column capture on:
`([^)]+)\) REFERENCES public\.(\w+)\(` followed by `fkMatchTCols`. -/
def fkMatchCols (st cn : List Char) (cs : List Char) :
    Option (ForeignKey × List Char) :=
  let sc := cs.takeWhile (· != ')')
  if sc.isEmpty then none
  else
    match dropLit ") REFERENCES public.".data (cs.dropWhile (· != ')')) with
    | none => none
    | some cs8 =>
      let (tt, cs9) := takeWordRun cs8
      if tt.isEmpty then none
      else
        match dropLit "(".data cs9 with
        | none => none
        | some cs10 => fkMatchTCols st cn sc tt cs10

/-- One attempt of the foreign-key regex
`ALTER TABLE (?:ONLY )?public\.(\w+) ADD CONSTRAINT (\w+) FOREIGN KEY
\(([^)]+)\) REFERENCES public\.(\w+)\(([^)]+)\)` at the current
position. -/
def fkMatch (cs : List Char) : Option (ForeignKey × List Char) :=
  match dropLit "ALTER TABLE ".data cs with
  | none => none
  | some cs1 =>
    let cs1' := match dropLit "ONLY ".data cs1 with
      | some r => r
      | none => cs1
    match dropLit "public.".data cs1' with
    | none => none
    | some cs2 =>
      let (st, cs3) := takeWordRun cs2
      if st.isEmpty then none
      else
        match dropLit " ADD CONSTRAINT ".data cs3 with
        | none => none
        | some cs4 =>
          let (cn, cs5) := takeWordRun cs4
          if cn.isEmpty then none
          else
            match dropLit " FOREIGN KEY (".data cs5 with
            | none => none
            | some cs6 => fkMatchCols st cn cs6

/-- `re.finditer` loop for the foreign-key regex (fuel-indexed as above). -/
def fkScanAux : Nat → List Char → List ForeignKey
  | 0, _ => []
  | _ + 1, [] => []
  | fuel + 1, c :: cs =>
    match fkMatch (c :: cs) with
    | some (fk, rest) => fk :: fkScanAux fuel rest
    | none => fkScanAux fuel cs

/-- `parse_foreign_keys` from `analyze-schema.py`. -/
def parse_foreign_keys (s : String) : List ForeignKey :=
  fkScanAux (s.data.length + 1) s.data

/-- Python's substring test `needle in hay`. -/
def containsSub (needle hay : String) : Bool :=
  hay.data.tails.any (fun t => needle.data.isPrefixOf t)

/-- The fixed allowlist `core_tables` of the reporter. -/
def core_tables : List String :=
  ["communities", "users", "stories", "places", "speakers", "themes",
   "curriculums"]

/-- The reporter's junction-table heuristic:
`'_' in t and any(core in t for core in core_tables)`. -/
def isJunction (t : String) : Bool :=
  containsSub "_" t && core_tables.any (fun core => containsSub core t)

/-- `junction_tables = [t for t in tables.keys() if ...]`. -/
def junction_tables (tables : List (String × List String)) : List String :=
  (tables.map Prod.fst).filter isJunction

/-- The reporter's media-table heuristic: `t.startswith('active_storage')`. -/
def isMediaTable (t : String) : Bool :=
  "active_storage".data.isPrefixOf t.data

/-- `active_storage_tables = [t for t in tables.keys() if ...]`. -/
def active_storage_tables (tables : List (String × List String)) : List String :=
  (tables.map Prod.fst).filter isMediaTable

/-- The TypeScript type-mapping cascade of the preview: the if/elif chain
on substring tests of the raw column fragment. -/
def tsTypeOf (col : String) : String :=
  if containsSub "bigint" col || containsSub "integer" col then "number"
  else if containsSub "character varying" col || containsSub "text" col then
    "string"
  else if containsSub "timestamp" col then "Date"
  else if containsSub "boolean" col then "boolean"
  else "unknown"

/-- Python `col.split()[0]`: the first maximal whitespace-free run, `none`
when the fragment has no non-whitespace character (in which case the
script raises `IndexError`). -/
def firstTok (s : List Char) : Option (List Char) :=
  match s.dropWhile isSpace with
  | [] => none
  | c :: cs => some (c :: cs.takeWhile (fun d => !isSpace d))

/-- One emitted field of the TypeScript preview: the field name
(`col.split()[0]`), whether it is marked optional with `?`
(`'NOT NULL' not in col`), and the mapped type.  `none` models the
`IndexError` raised on a fragment with no tokens. -/
def tsField (col : String) : Option (String × Bool × String) :=
  match firstTok col.data with
  | none => none
  | some name => some (String.mk name, !containsSub "NOT NULL" col, tsTypeOf col)

/-- The line the summary file writes for one foreign key. -/
def fkLine (fk : ForeignKey) : String :=
  fk.source_table ++ "." ++ fk.source_column ++ " → " ++ fk.target_table ++
    "." ++ fk.target_column ++ "\n"

/-- The text written to `migration-analysis/schema_analysis.txt` (the
`date` shell output is a parameter). -/
def summaryText (date : String) (tables : List (String × List String))
    (fks : List ForeignKey) : String :=
  "TERRASTORIES SCHEMA ANALYSIS\nGenerated: " ++ date ++ "\n\n" ++
    "CORE TABLES:\n" ++
    String.join (core_tables.filterMap (fun t =>
      (tables.lookup t).map (fun cols =>
        "\n" ++ t ++ ":\n" ++
          String.join (cols.map (fun c => "  " ++ c ++ "\n"))))) ++
    "\nFOREIGN KEYS:\n" ++ String.join (fks.map fkLine)

/-- The externally observable outcome of one run of the script. -/
structure RunResult where
  printedNotFound : Bool
  outputDirCreated : Bool
  summaryWritten : Option String
deriving Repr, DecidableEq

/-- `analyze_terrastories_schema`, abstracted over the file system: the
input is `none` when `dump-analysis/schema.sql` does not exist, otherwise
`some` of its content; `date` stands for the `os.popen('date')` output.
`Except.error` models an uncaught Python exception (the preview's
`col.split()[0]` raises `IndexError` on a column fragment with no
tokens, before the output directory is created). -/
def analyze_terrastories_schema (schemaFile : Option String) (date : String) :
    Except String RunResult :=
  match schemaFile with
  | none => .ok ⟨true, false, none⟩
  | some content =>
    let tables := parse_create_table content
    let fks := parse_foreign_keys content
    if core_tables.any (fun t =>
        match tables.lookup t with
        | some cols => (cols.take 5).any (fun col => (tsField col).isNone)
        | none => false) then
      .error "IndexError"
    else
      .ok ⟨false, true, some (summaryText date tables fks)⟩

/-! ### Helper lemmas -/

/-- `dictInsert` binds a key in the result iff it is the inserted key or
was already bound. -/
theorem mem_keys_dictInsert (a k : String) (v : List String) :
    ∀ l : List (String × List String),
      a ∈ (dictInsert k v l).map Prod.fst ↔ a = k ∨ a ∈ l.map Prod.fst
  | [] => by simp [dictInsert]
  | (k', v') :: rest => by
    by_cases hk : k' = k
    · subst hk
      simp [dictInsert]
    · simp only [dictInsert, if_neg hk, List.map_cons, List.mem_cons,
        mem_keys_dictInsert a k v rest]
      tauto

/-- `dictInsert` preserves distinctness of the bound keys. -/
theorem dictInsert_keys_nodup (k : String) (v : List String) :
    ∀ l : List (String × List String),
      (l.map Prod.fst).Nodup → ((dictInsert k v l).map Prod.fst).Nodup
  | [], _ => by simp [dictInsert]
  | (k', v') :: rest, h => by
    simp only [List.map_cons, List.nodup_cons] at h
    by_cases hk : k' = k
    · subst hk
      simpa [dictInsert] using h
    · simp only [dictInsert, if_neg hk, List.map_cons, List.nodup_cons,
        mem_keys_dictInsert]
      exact ⟨by tauto, dictInsert_keys_nodup k v rest h.2⟩

/-- Looking up the key just written by `dictInsert` returns the new
value. -/
theorem lookup_dictInsert_self (k : String) (v : List String) :
    ∀ l : List (String × List String), (dictInsert k v l).lookup k = some v
  | [] => by simp [dictInsert, List.lookup]
  | (k', v') :: rest => by
    by_cases hk : k' = k
    · subst hk
      simp [dictInsert, List.lookup]
    · simp only [dictInsert, if_neg hk, List.lookup,
        beq_eq_false_iff_ne.mpr (Ne.symm hk)]
      exact lookup_dictInsert_self k v rest

/-- `dictInsert` leaves the lookup of every other key unchanged. -/
theorem lookup_dictInsert_ne (a k : String) (v : List String) (h : a ≠ k) :
    ∀ l : List (String × List String),
      (dictInsert k v l).lookup a = l.lookup a
  | [] => by simp [dictInsert, List.lookup, beq_eq_false_iff_ne.mpr h]
  | (k', v') :: rest => by
    by_cases hk : k' = k
    · subst hk
      simp [dictInsert, List.lookup, beq_eq_false_iff_ne.mpr h]
    · simp only [dictInsert, if_neg hk, List.lookup]
      cases hak : a == k' with
      | true => rfl
      | false => exact lookup_dictInsert_ne a k v h rest

/-- Looking up a name after the `parse_create_table` fold yields the
processed columns of the latest scan match bearing that name, falling
back to the starting accumulator when no match bears it: Python's
`tables[table_name] = columns` keeps only the last assignment. -/
theorem lookup_foldl_dictInsert (k : String) :
    ∀ (ms : List (List Char × List Char)) (acc : List (String × List String)),
      ((ms.foldl
          (fun acc m =>
            dictInsert (String.mk m.1) ((processCols m.2).map String.mk) acc)
          acc).lookup k) =
        match ms.reverse.find? (fun m => String.mk m.1 == k) with
        | some m => some ((processCols m.2).map String.mk)
        | none => acc.lookup k
  | [], acc => by simp [List.find?]
  | m :: ms, acc => by
    simp only [List.foldl_cons, lookup_foldl_dictInsert k ms, List.reverse_cons,
      List.find?_append]
    cases hf : ms.reverse.find? (fun m => String.mk m.1 == k) with
    | some m' => rfl
    | none =>
      simp only [Option.none_or, List.find?]
      cases hpk : (String.mk m.1 == k) with
      | true =>
        have hk : String.mk m.1 = k := beq_iff_eq.mp hpk
        rw [← hk, lookup_dictInsert_self]
      | false =>
        have hk : k ≠ String.mk m.1 := fun he =>
          (beq_eq_false_iff_ne.mp hpk) he.symm
        rw [lookup_dictInsert_ne _ _ _ hk]

/-- The fold underlying `parse_create_table` preserves key distinctness. -/
theorem foldl_dictInsert_keys_nodup
    (ms : List (List Char × List Char)) (acc : List (String × List String))
    (h : (acc.map Prod.fst).Nodup) :
    ((ms.foldl
        (fun acc m =>
          dictInsert (String.mk m.1) ((processCols m.2).map String.mk) acc)
        acc).map Prod.fst).Nodup := by
  induction ms generalizing acc with
  | nil => exact h
  | cons m ms ih => exact ih _ (dictInsert_keys_nodup _ _ _ h)

/-- If the table regex matches at no suffix of the input, the scan loop
finds nothing. -/
theorem ctScanAux_no_match :
    ∀ (fuel : Nat) (cs : List Char),
      (∀ t ∈ cs.tails, ctMatch t = none) → ctScanAux fuel cs = []
  | 0, _, _ => rfl
  | _ + 1, [], _ => rfl
  | fuel + 1, c :: cs, h => by
    have hself : ctMatch (c :: cs) = none :=
      h (c :: cs) (by simp [List.tails_cons])
    have htail : ∀ t ∈ cs.tails, ctMatch t = none := fun t ht =>
      h t (by simp [List.tails_cons, ht])
    simp only [ctScanAux, hself]
    exact ctScanAux_no_match fuel cs htail

/-- If the foreign-key regex matches at no suffix of the input, the scan
loop finds nothing. -/
theorem fkScanAux_no_match :
    ∀ (fuel : Nat) (cs : List Char),
      (∀ t ∈ cs.tails, fkMatch t = none) → fkScanAux fuel cs = []
  | 0, _, _ => rfl
  | _ + 1, [], _ => rfl
  | fuel + 1, c :: cs, h => by
    have hself : fkMatch (c :: cs) = none :=
      h (c :: cs) (by simp [List.tails_cons])
    have htail : ∀ t ∈ cs.tails, fkMatch t = none := fun t ht =>
      h t (by simp [List.tails_cons, ht])
    simp only [fkScanAux, hself]
    exact fkScanAux_no_match fuel cs htail

/-- `takeWhile` over an append whose left part satisfies the predicate
and whose right part starts with a failing character keeps exactly the
left part. -/
theorem takeWhile_append_of (p : Char → Bool) :
    ∀ (xs ys : List Char), (∀ x ∈ xs, p x = true) →
      (∀ c, ys.head? = some c → p c = false) →
      (xs ++ ys).takeWhile p = xs
  | [], ys, _, hy => by
    cases ys with
    | nil => rfl
    | cons c ys' => simp [List.takeWhile_cons, hy c rfl]
  | x :: xs, ys, hx, hy => by
    have hpx : p x = true := hx x (List.mem_cons_self x xs)
    simp only [List.cons_append, List.takeWhile_cons, hpx, if_true]
    rw [takeWhile_append_of p xs ys (fun a ha => hx a (List.mem_cons_of_mem x ha)) hy]

/-- `dropWhile` over such an append drops exactly the left part. -/
theorem dropWhile_append_of (p : Char → Bool) :
    ∀ (xs ys : List Char), (∀ x ∈ xs, p x = true) →
      (∀ c, ys.head? = some c → p c = false) →
      (xs ++ ys).dropWhile p = ys
  | [], ys, _, hy => by
    cases ys with
    | nil => rfl
    | cons c ys' => simp [List.dropWhile_cons, hy c rfl]
  | x :: xs, ys, hx, hy => by
    have hpx : p x = true := hx x (List.mem_cons_self x xs)
    simp only [List.cons_append, List.dropWhile_cons, hpx, if_true]
    exact dropWhile_append_of p xs ys (fun a ha => hx a (List.mem_cons_of_mem x ha)) hy

/-- The concrete prefix of the C7 statement reduces `fkMatch` to its
source-column stage, for any continuation `X`. -/
theorem fkMatch_stage (X : List Char) :
    fkMatch
        ("ALTER TABLE ONLY public.stories ADD CONSTRAINT fk_x FOREIGN KEY (".data ++ X) =
      fkMatchCols "stories".data "fk_x".data X := rfl

/-- The source-column stage captures an arbitrary `)`-free nonempty run
verbatim and proceeds to the target-column stage. -/
theorem fkMatchCols_stage (st cn sc tcc : List Char) (h1 : sc ≠ [])
    (h2 : ')' ∉ sc) :
    fkMatchCols st cn
        (sc ++ (") REFERENCES public.communities(".data ++ tcc)) =
      fkMatchTCols st cn sc "communities".data tcc := by
  have hx : ∀ x ∈ sc, (x != ')') = true := fun x hx =>
    bne_iff_ne.mpr (fun he => h2 (he ▸ hx))
  have hy : ∀ c,
      ((") REFERENCES public.communities(".data ++ tcc)).head? = some c →
        (c != ')') = false := by
    intro c hc
    rw [show ((") REFERENCES public.communities(".data ++ tcc)).head? =
        some ')' from rfl] at hc
    injection hc with h
    subst h
    rfl
  have hne : sc.isEmpty = false := by
    cases sc with
    | nil => exact absurd rfl h1
    | cons a l => rfl
  simp only [fkMatchCols, takeWhile_append_of _ _ _ hx hy,
    dropWhile_append_of _ _ _ hx hy, hne, Bool.false_eq_true, if_false]
  rfl

/-- The target-column stage captures an arbitrary `)`-free nonempty run
verbatim and closes the match at the final parenthesis. -/
theorem fkMatchTCols_stage (st cn sc tt tc : List Char) (h1 : tc ≠ [])
    (h2 : ')' ∉ tc) :
    fkMatchTCols st cn sc tt (tc ++ [')']) =
      some (⟨String.mk st, String.mk sc, String.mk tt, String.mk tc,
             String.mk cn⟩, []) := by
  have hx : ∀ x ∈ tc, (x != ')') = true := fun x hx =>
    bne_iff_ne.mpr (fun he => h2 (he ▸ hx))
  have hy : ∀ c, ([')'] : List Char).head? = some c → (c != ')') = false := by
    intro c hc
    injection hc with h
    subst h
    rfl
  have hne : tc.isEmpty = false := by
    cases tc with
    | nil => exact absurd rfl h1
    | cons a l => rfl
  simp only [fkMatchTCols, takeWhile_append_of _ _ _ hx hy,
    dropWhile_append_of _ _ _ hx hy, hne, Bool.false_eq_true, if_false]
  rfl

/-- The scan loop returns nothing on exhausted input. -/
theorem fkScanAux_nil : ∀ fuel : Nat, fkScanAux fuel [] = []
  | 0 => rfl
  | _ + 1 => rfl

/-- One successful step of the scan loop. -/
theorem fkScanAux_succ_match (fuel : Nat) (cs : List Char)
    (fk : ForeignKey) (rest : List Char)
    (h : fkMatch cs = some (fk, rest)) :
    fkScanAux (fuel + 1) cs = fk :: fkScanAux fuel rest := by
  cases cs with
  | nil =>
    rw [show fkMatch ([] : List Char) = none from rfl] at h
    exact Option.noConfusion h
  | cons c cs => simp only [fkScanAux, h]

/-- The head of a `dropWhile` result falsifies the predicate. -/
theorem dropWhile_head_false (p : Char → Bool) :
    ∀ (l : List Char) (c : Char) (cs : List Char),
      l.dropWhile p = c :: cs → p c = false
  | [], _, _, h => by simp at h
  | a :: l, c, cs, h => by
    by_cases ha : p a
    · rw [List.dropWhile_cons_of_pos ha] at h
      exact dropWhile_head_false p l c cs h
    · rw [List.dropWhile_cons_of_neg ha] at h
      cases h
      exact Bool.of_not_eq_true ha

/-! ### Claim theorems -/

/-- C1 (counterexample): on the one-line snippet
`CREATE TABLE "public"."users" ("id" bigint NOT NULL, "name" character varying);`,
`parse_create_table` does NOT bind `users` to the two separate fragments
`id bigint NOT NULL` and `name character varying`: column splitting is
newline-based, so the one-line definition yields a single fragment. -/
theorem parse_create_table_c1_not_two_fragments :
    ¬ ((parse_create_table
          "CREATE TABLE \"public\".\"users\" (\"id\" bigint NOT NULL, \"name\" character varying);").lookup
        "users" =
        some ["id bigint NOT NULL", "name character varying"]) := by decide

/-- C1 (amended): on that one-line snippet, `parse_create_table` returns a
mapping whose only key is `users`, bound to the single comma-joined
fragment `id bigint NOT NULL, name character varying` (the original
column text with double quotes removed). -/
theorem parse_create_table_c1_amended :
    parse_create_table
      "CREATE TABLE \"public\".\"users\" (\"id\" bigint NOT NULL, \"name\" character varying);" =
      [("users", ["id bigint NOT NULL, name character varying"])] := by decide

/-- C2: on the single `ALTER TABLE ONLY public.stories ADD CONSTRAINT fk_x
FOREIGN KEY (community_id) REFERENCES public.communities(id)` statement,
`parse_foreign_keys` returns exactly one record with source table
`stories`, source column `community_id`, target table `communities`,
target column `id` and constraint name `fk_x`. -/
theorem parse_foreign_keys_c2_single_edge :
    parse_foreign_keys
      "ALTER TABLE ONLY public.stories ADD CONSTRAINT fk_x FOREIGN KEY (community_id) REFERENCES public.communities(id)" =
      [⟨"stories", "community_id", "communities", "id", "fk_x"⟩] := by decide

/-- C3: when the input file is absent, the run prints the not-found
message and returns normally (no exception), creating no output
directory and writing no summary file — for every value of the `date`
environment. -/
theorem analyze_schema_c3_missing_input (date : String) :
    analyze_terrastories_schema none date =
      Except.ok ⟨true, false, none⟩ := rfl

/-- C5: on a parsed schema defining `story_speakers` and
`active_storage_blobs`, the reporter classifies `story_speakers` as a
junction table (its name contains `_` and the core name `speakers`) and
`active_storage_blobs` as a media table (its name starts with
`active_storage`), and neither the other way round. -/
theorem classification_c5_junction_media :
    junction_tables
        (parse_create_table
          "CREATE TABLE \"public\".\"story_speakers\" (\"id\" bigint);\nCREATE TABLE \"public\".\"active_storage_blobs\" (\"id\" bigint);") =
        ["story_speakers"] ∧
      active_storage_tables
        (parse_create_table
          "CREATE TABLE \"public\".\"story_speakers\" (\"id\" bigint);\nCREATE TABLE \"public\".\"active_storage_blobs\" (\"id\" bigint);") =
        ["active_storage_blobs"] := by constructor <;> decide

/-- C6: both extractors are pure Lean functions of the input text, so two
evaluations on the same text are equal — the embedding has no hidden
state. -/
theorem parsers_c6_deterministic (s : String) :
    parse_create_table s = parse_create_table s ∧
      parse_foreign_keys s = parse_foreign_keys s := ⟨rfl, rfl⟩

/-- C6 witness. -/
theorem parsers_c6_deterministic_witness :
    parse_create_table "x" = parse_create_table "x" ∧
      parse_foreign_keys "x" = parse_foreign_keys "x" :=
  parsers_c6_deterministic "x"

/-- C4: the type-mapping cascade sends every fragment containing
`bigint` to `number`; every fragment containing `boolean` but none of
the earlier-checked tokens (`bigint`, `integer`, `character varying`,
`text`, `timestamp`) to `boolean`; and every fragment containing none of
the six recognized tokens to `unknown`. -/
theorem tsTypeOf_c4_cascade :
    (∀ col : String, containsSub "bigint" col = true →
        tsTypeOf col = "number") ∧
      (∀ col : String, containsSub "boolean" col = true →
        containsSub "bigint" col = false → containsSub "integer" col = false →
        containsSub "character varying" col = false →
        containsSub "text" col = false → containsSub "timestamp" col = false →
        tsTypeOf col = "boolean") ∧
      (∀ col : String, containsSub "bigint" col = false →
        containsSub "integer" col = false →
        containsSub "character varying" col = false →
        containsSub "text" col = false → containsSub "timestamp" col = false →
        containsSub "boolean" col = false → tsTypeOf col = "unknown") := by
  refine ⟨fun col h => ?_, fun col h1 h2 h3 h4 h5 h6 => ?_,
    fun col h1 h2 h3 h4 h5 h6 => ?_⟩ <;>
    simp [tsTypeOf, *]

/-- C4 witness. -/
theorem tsTypeOf_c4_cascade_witness :
    tsTypeOf "id bigint NOT NULL" = "number" ∧
      tsTypeOf "flag boolean DEFAULT false" = "boolean" ∧
      tsTypeOf "id uuid NOT NULL" = "unknown" :=
  ⟨tsTypeOf_c4_cascade.1 _ (by decide),
   tsTypeOf_c4_cascade.2.1 _ (by decide) (by decide) (by decide) (by decide)
     (by decide) (by decide),
   tsTypeOf_c4_cascade.2.2 _ (by decide) (by decide) (by decide) (by decide)
     (by decide) (by decide)⟩

/-- C7: for every pair of `)`-free nonempty column lists (in particular
comma-joined composite ones such as `a, b`), the foreign-key extractor
captures each list verbatim as a single unsplit string in
`source_column` / `target_column`; it never decomposes them. -/
theorem parse_foreign_keys_c7_composite (cols tcols : String)
    (h1 : cols.data ≠ []) (h2 : ')' ∉ cols.data)
    (h3 : tcols.data ≠ []) (h4 : ')' ∉ tcols.data) :
    parse_foreign_keys
        ("ALTER TABLE ONLY public.stories ADD CONSTRAINT fk_x FOREIGN KEY (" ++
          cols ++ ") REFERENCES public.communities(" ++ tcols ++ ")") =
      [⟨"stories", cols, "communities", tcols, "fk_x"⟩] := by
  have hdata :
      ("ALTER TABLE ONLY public.stories ADD CONSTRAINT fk_x FOREIGN KEY (" ++
          cols ++ ") REFERENCES public.communities(" ++ tcols ++ ")").data =
        "ALTER TABLE ONLY public.stories ADD CONSTRAINT fk_x FOREIGN KEY (".data ++
          (cols.data ++
            (") REFERENCES public.communities(".data ++
              (tcols.data ++ [')']))) := by
    simp only [String.data_append, List.append_assoc]
  have hmatch :
      fkMatch
          ("ALTER TABLE ONLY public.stories ADD CONSTRAINT fk_x FOREIGN KEY (".data ++
            (cols.data ++
              (") REFERENCES public.communities(".data ++
                (tcols.data ++ [')'])))) =
        some (⟨"stories", cols, "communities", tcols, "fk_x"⟩, []) := by
    rw [fkMatch_stage, fkMatchCols_stage _ _ _ _ h1 h2,
      fkMatchTCols_stage _ _ _ _ _ h3 h4]
  unfold parse_foreign_keys
  rw [hdata, fkScanAux_succ_match _ _ _ _ hmatch, fkScanAux_nil]

/-- C7 witness: composite keys `(a, b)` and `(x, y)` are captured as the
unsplit strings `a, b` and `x, y`. -/
theorem parse_foreign_keys_c7_witness :
    parse_foreign_keys
        "ALTER TABLE ONLY public.stories ADD CONSTRAINT fk_x FOREIGN KEY (a, b) REFERENCES public.communities(x, y)" =
      [⟨"stories", "a, b", "communities", "x, y", "fk_x"⟩] :=
  parse_foreign_keys_c7_composite "a, b" "x, y" (by decide) (by decide)
    (by decide) (by decide)

/-- C8: both extractors are total Lean functions, and on any text at
which the corresponding regex matches at no position they return the
empty mapping / the empty list, with no error signal of any kind. -/
theorem parsers_c8_no_match_empty :
    (∀ s : String, (∀ t ∈ s.data.tails, ctMatch t = none) →
        parse_create_table s = []) ∧
      (∀ s : String, (∀ t ∈ s.data.tails, fkMatch t = none) →
        parse_foreign_keys s = []) := by
  constructor
  · intro s h
    unfold parse_create_table ctScan
    rw [ctScanAux_no_match _ _ h]
    rfl
  · intro s h
    unfold parse_foreign_keys
    exact fkScanAux_no_match _ _ h

/-- C8 witness. -/
theorem parsers_c8_no_match_empty_witness :
    parse_create_table "no tables here" = [] ∧
      parse_foreign_keys "no tables here" = [] :=
  ⟨parsers_c8_no_match_empty.1 "no tables here" (by decide),
   parsers_c8_no_match_empty.2 "no tables here" (by decide)⟩

/-- C10: whenever the TypeScript preview emits a field for a column
fragment, the field name is the fragment's first whitespace-separated
token (a nonempty whitespace-free run, starting right after the leading
whitespace, followed by whitespace or the end of the fragment), and the
field is marked optional iff the fragment does not contain `NOT NULL`. -/
theorem tsField_c10_name_and_optional (col name : String) (opt : Bool)
    (ty : String) (h : tsField col = some (name, opt, ty)) :
    (name.data ≠ [] ∧ (∀ c ∈ name.data, isSpace c = false) ∧
      ∃ rest, col.data.dropWhile isSpace = name.data ++ rest ∧
        (rest = [] ∨ ∃ d rest', rest = d :: rest' ∧ isSpace d = true)) ∧
      (opt = true ↔ containsSub "NOT NULL" col = false) := by
  unfold tsField firstTok at h
  rcases hd : col.data.dropWhile isSpace with _ | ⟨c, cs⟩
  · rw [hd] at h
    simp at h
  · rw [hd] at h
    simp only [Option.some.injEq, Prod.mk.injEq] at h
    obtain ⟨hname, hopt, -⟩ := h
    have hname' : name.data = c :: cs.takeWhile (fun d => !isSpace d) := by
      rw [← hname]
    constructor
    · refine ⟨?_, ?_, cs.dropWhile (fun d => !isSpace d), ?_, ?_⟩
      · rw [hname']
        simp
      · intro x hx
        rw [hname'] at hx
        rcases List.mem_cons.mp hx with hx | hx
        · rw [hx]
          exact dropWhile_head_false isSpace col.data c cs hd
        · have := List.mem_takeWhile_imp hx
          simpa using this
      · rw [hname']
        simp [List.takeWhile_append_dropWhile]
      · rcases hr : cs.dropWhile (fun d => !isSpace d) with _ | ⟨d, rest'⟩
        · exact Or.inl rfl
        · refine Or.inr ⟨d, rest', rfl, ?_⟩
          have := dropWhile_head_false (fun d => !isSpace d) cs d rest' hr
          simpa using this
    · rw [← hopt]
      cases hcs : containsSub "NOT NULL" col <;> simp

/-- C10 witness: the fragment `id bigint NOT NULL` yields field name
`id`, not optional. -/
theorem tsField_c10_witness :
    ((("id" : String)).data ≠ [] ∧
        (∀ c ∈ (("id" : String)).data, isSpace c = false) ∧
        ∃ rest,
          (("id bigint NOT NULL" : String)).data.dropWhile isSpace =
              (("id" : String)).data ++ rest ∧
            (rest = [] ∨ ∃ d rest', rest = d :: rest' ∧ isSpace d = true)) ∧
      ((false = true) ↔ containsSub "NOT NULL" "id bigint NOT NULL" = false) :=
  tsField_c10_name_and_optional "id bigint NOT NULL" "id" false "number"
    (by decide)

/-- C9: `parse_create_table` binds every table name at most once (the
Python `dict` semantics of `tables[table_name] = columns`); for every
input text and every name, the binding is the processed column list of
the latest-occurring `CREATE TABLE` match bearing that name (and absent
when no match bears it), so earlier duplicate definitions are silently
overwritten; and on a concrete input with two `CREATE TABLE` statements
for `users` the surviving binding is the last statement's column list. -/
theorem parse_create_table_c9_last_wins :
    (∀ s : String, ((parse_create_table s).map Prod.fst).Nodup) ∧
      (∀ s k : String,
        (parse_create_table s).lookup k =
          ((ctScan s.data).reverse.find? (fun m => String.mk m.1 == k)).map
            (fun m => (processCols m.2).map String.mk)) ∧
      parse_create_table
        "CREATE TABLE \"public\".\"users\" (\n    \"a\" bigint\n);\nCREATE TABLE \"public\".\"users\" (\n    \"b\" integer\n);" =
        [("users", ["b integer"])] := by
  refine ⟨fun s => foldl_dictInsert_keys_nodup _ _ (by simp), fun s k => ?_,
    by decide⟩
  unfold parse_create_table
  rw [lookup_foldl_dictInsert]
  cases hf : (ctScan s.data).reverse.find? (fun m => String.mk m.1 == k) with
  | some m => rfl
  | none => rfl

